import Mathlib

/-!
Verification development for the `search-mcp` server (`server.py`).

The Python source is shallowly embedded: JSON values become the `Json`
inductive, Python string operations are modelled char-by-char (`py*`
functions below), Python's dynamic failures (AttributeError, TypeError,
IndexError, KeyError) become `Except PyErr`, and the two external
collaborators (the HTTP transport and the BeautifulSoup/markdownify
conversion pipeline) become explicit oracle parameters.  Every public
operation returns a `Json` value, mirroring the Python dict the source
returns.
-/

/-- JSON values, as produced by Python's `json` module: integers and
floats are separate constructors because Python keeps `int` and `float`
apart.  Objects are ordered association lists with string keys. -/
inductive Json where
  | null : Json
  | bool (b : Bool) : Json
  | num (n : Int) : Json
  | flt (q : ℚ) : Json
  | str (s : String) : Json
  | arr (items : List Json) : Json
  | obj (fields : List (String × Json)) : Json

/-- Python runtime errors that the embedded code can raise.  The carried
string loosely models `str(error)`; no claim depends on the exact
exception text. -/
inductive PyErr where
  | keyError (msg : String) : PyErr
  | attributeError (msg : String) : PyErr
  | typeError (msg : String) : PyErr
  | indexError (msg : String) : PyErr
deriving DecidableEq

/-- Outcome of the single `session.post` the search operation performs:
either a transport exception, or a response carrying the HTTP status,
reason phrase, body text, and the result of `json.loads(body)` (`none`
when the body is not valid JSON, as for an HTML page). -/
inductive NetResult where
  | exn (msg : String) : NetResult
  | resp (status : Int) (reason : String) (body : String) (parsed : Option Json) : NetResult

/-- Outcome of the single `session.get` a page read performs: either a
transport exception, or a response carrying status, reason phrase, the
declared content type and the body text. -/
inductive FetchResult where
  | exn (msg : String) : FetchResult
  | resp (status : Int) (reason : String) (contentType : String) (body : String) : FetchResult

/-! ### Char-level models of the Python string operations used by the source -/

/-- The whitespace characters stripped by Python's `str.strip()`
(ASCII part; the Unicode extras are irrelevant to this code base). -/
def pyIsSpace (c : Char) : Bool :=
  c == ' ' || c == '\t' || c == '\n' || c == '\r' || c == '\x0b' || c == '\x0c'

/-- `needle` is a prefix of `hay` (model of `str.startswith`). -/
def startsWithL (needle hay : List Char) : Bool :=
  match needle, hay with
  | [], _ => true
  | _ :: _, [] => false
  | a :: as, b :: bs => a == b && startsWithL as bs

/-- `needle` occurrs somewhere in `hay` (model of Python's `in`). -/
def containsL (needle hay : List Char) : Bool :=
  startsWithL needle hay ||
    match hay with
    | [] => false
    | _ :: t => containsL needle t

/-- Python `needle in hay` on strings. -/
def pyContains (needle hay : String) : Bool :=
  containsL needle.toList hay.toList

/-- Python `hay.startswith(needle)`. -/
def pyStartsWith (needle hay : String) : Bool :=
  startsWithL needle.toList hay.toList

/-- Python `s[:n]` (slicing counts characters). -/
def pySlice (n : Nat) (s : String) : String :=
  ⟨s.toList.take n⟩

/-- Python `s.lower()` (ASCII model). -/
def pyLower (s : String) : String :=
  ⟨s.toList.map Char.toLower⟩

/-- Python `line.rstrip()` at the char-list level. -/
def pyRstripL (l : List Char) : List Char :=
  (l.reverse.dropWhile pyIsSpace).reverse

/-- Python `s.strip()` at the char-list level. -/
def pyStripL (l : List Char) : List Char :=
  ((l.dropWhile pyIsSpace).reverse.dropWhile pyIsSpace).reverse

/-- Python `s.strip()`. -/
def pyStrip (s : String) : String :=
  ⟨pyStripL s.toList⟩

/-- Python `s.split('\n')` at the char-list level: always returns at
least one (possibly empty) piece, pieces contain no newline. -/
def pySplitNL : List Char → List (List Char)
  | [] => [[]]
  | c :: rest =>
    if c = '\n' then [] :: pySplitNL rest
    else
      match pySplitNL rest with
      | l :: ls => (c :: l) :: ls
      | [] => [[c]]

/-- Python `'\n'.join(...)` at the char-list level. -/
def pyIntercalateNL : List (List Char) → List Char
  | [] => []
  | [l] => l
  | l :: m :: rest => l ++ '\n' :: pyIntercalateNL (m :: rest)

example : pySplitNL "a\n\nb".toList = [['a'], [], ['b']] := by decide
example : pyContains "Sign in" "please Sign in now" = true := by decide
example : pyStrip "  \n x \n " = "x" := by rfl

/-! ### Python `str()` / `repr()` of JSON values (used by f-string interpolation) -/

/-- An ASCII single-quote character, as a string. -/
def squote : String := String.singleton (Char.ofNat 39)

mutual
/-- Python `repr()` of a parsed-JSON value.  String escaping inside
`repr` and the exact float spelling are approximated (claims never
depend on them); everything else matches Python. -/
def pyRepr : Json → String
  | Json.null => "None"
  | Json.bool true => "True"
  | Json.bool false => "False"
  | Json.num n => toString n
  | Json.flt q => toString q
  | Json.str s => squote ++ s ++ squote
  | Json.arr items => "[" ++ pyReprList items ++ "]"
  | Json.obj fields => "\x7b" ++ pyReprFields fields ++ "\x7d"
  termination_by structural j => j

/-- `repr` of list elements, comma separated. -/
def pyReprList : List Json → String
  | [] => ""
  | [x] => pyRepr x
  | x :: y :: rest => pyRepr x ++ ", " ++ pyReprList (y :: rest)
  termination_by structural l => l

/-- `repr` of dict entries, comma separated. -/
def pyReprFields : List (String × Json) → String
  | [] => ""
  | [(k, v)] => squote ++ k ++ squote ++ ": " ++ pyRepr v
  | (k, v) :: f :: rest => squote ++ k ++ squote ++ ": " ++ pyRepr v ++ ", " ++ pyReprFields (f :: rest)
  termination_by structural l => l
end

/-- Python `str()` of a parsed-JSON value, as f-string interpolation
applies it: a string renders as its contents, everything else as its
`repr`. -/
def pyStr : Json → String
  | Json.str s => s
  | j => pyRepr j

/-! ### Python attribute/index access on parsed-JSON values -/

/-- Python `d.get(key, default)`: succeeds on a dict, raises
AttributeError on anything else. -/
def pyGet (j : Json) (key : String) (default : Json) : Except PyErr Json :=
  match j with
  | Json.obj fields => Except.ok ((List.lookup key fields).getD default)
  | _ => Except.error (PyErr.attributeError ("object has no attribute get: " ++ pyRepr j))

/-- Python `x[0]`: first element of a list, first character of a
nonempty string, IndexError when either is empty.  On a dict it raises
`KeyError(0)` — a JSON-parsed dict has only string keys, so the integer
key 0 is never present (`str(KeyError(0))` is `"0"`, carried here).
Anything else raises TypeError. -/
def pyIndexZero : Json → Except PyErr Json
  | Json.arr (x :: _) => Except.ok x
  | Json.arr [] => Except.error (PyErr.indexError "list index out of range")
  | Json.str s =>
    match s.toList with
    | c :: _ => Except.ok (Json.str (String.singleton c))
    | [] => Except.error (PyErr.indexError "string index out of range")
  | Json.obj _ => Except.error (PyErr.keyError "0")
  | j => Except.error (PyErr.typeError ("object is not subscriptable: " ++ pyRepr j))

/-- Python iteration (and `len`): a list yields its elements, a string
its characters, a dict its keys; other values raise TypeError. -/
def pyIterable : Json → Except PyErr (List Json)
  | Json.arr items => Except.ok items
  | Json.str s => Except.ok (s.toList.map fun c => Json.str (String.singleton c))
  | Json.obj fields => Except.ok (fields.map fun kv => Json.str kv.1)
  | j => Except.error (PyErr.typeError ("object is not iterable: " ++ pyRepr j))

/-- Checks that a JSON value is a string. -/
def isStrB : Json → Bool
  | Json.str _ => true
  | _ => false

/-- Extracts the strings of a list of JSON values, raising TypeError at
the first non-string element (as `str.join` does). -/
def strList : List Json → Except PyErr (List String)
  | [] => Except.ok []
  | x :: rest =>
    match x with
    | Json.str s =>
      match strList rest with
      | Except.ok parts => Except.ok (s :: parts)
      | Except.error e => Except.error e
    | y => Except.error (PyErr.typeError ("sequence item is not a string: " ++ pyRepr y))

/-- Python `sep.join(x)`: joins a list of strings (TypeError on a
non-string element), the characters of a string, or the keys of a dict. -/
def pyJoinSep (sep : String) (j : Json) : Except PyErr String :=
  match j with
  | Json.arr items =>
    match strList items with
    | Except.ok parts => Except.ok (String.intercalate sep parts)
    | Except.error e => Except.error e
  | Json.str s => Except.ok (String.intercalate sep (s.toList.map String.singleton))
  | Json.obj fields => Except.ok (String.intercalate sep (fields.map fun kv => kv.1))
  | y => Except.error (PyErr.typeError ("can only join an iterable: " ++ pyRepr y))

/-- Python `x == lit` for a string literal `lit`: true exactly when `x`
is an equal string (values of other types are never `==` a string). -/
def pyEqStrLit (j : Json) (lit : String) : Bool :=
  match j with
  | Json.str s => s == lit
  | _ => false

/-- Python truthiness of a parsed-JSON value. -/
def pyTruthy : Json → Bool
  | Json.null => false
  | Json.bool b => b
  | Json.num n => n != 0
  | Json.flt q => q != 0
  | Json.str s => s != ""
  | Json.arr items => !items.isEmpty
  | Json.obj fields => !fields.isEmpty

/-- Description of an exception as the source's `f"...{error}"` renders
it; the carried string is `str(e)` (so `KeyError(0)` carries `"0"`);
the non-KeyError texts are modelled loosely, no claim depends on them. -/
def pyErrText : PyErr → String
  | PyErr.keyError m => m
  | PyErr.attributeError m => m
  | PyErr.typeError m => m
  | PyErr.indexError m => m

/-! ### The uniform MCP tool response envelope -/

/-- The dict literal `{"content": [{"type": "text", "text": s}]}` that
every return statement of the source constructs. -/
def envelope (s : String) : Json :=
  Json.obj [("content", Json.arr [Json.obj [("type", Json.str "text"), ("text", Json.str s)]])]

/-! ### `_read_url_content`: whitespace cleanup (server.py lines 130-146) -/

/-- The loop of server.py lines 131-144: rstrip every line, drop an
empty line whenever the previously kept line was empty. -/
def cleanLines (prev_empty : Bool) : List (List Char) → List (List Char)
  | [] => []
  | line :: rest =>
    let line' := pyRstripL line
    let is_empty := line'.isEmpty
    if is_empty && prev_empty then cleanLines prev_empty rest
    else line' :: cleanLines is_empty rest

/-- server.py lines 131-146: split the converted markdown on newlines,
collapse runs of blank lines, rejoin, and strip the ends
(`'\n'.join(cleaned_lines).strip()`). -/
def cleanupLines (markdown_content : String) : String :=
  ⟨pyStripL (pyIntercalateNL (cleanLines false (pySplitNL markdown_content.toList)))⟩

example : cleanupLines "a\n\n\n\nb" = "a\n\nb" := by rfl
example : cleanupLines "\n\nx  \n" = "x" := by rfl

/-! ### `_read_url_content` (server.py lines 44-168)

The single GET the helper performs is abstracted as a `FetchResult`
argument; the BeautifulSoup cleanup (sidebar/script removal) plus the
`markdownify` call — both external libraries whose failure the source
catches — are abstracted as one `convert` oracle that either returns the
converted markdown or raises. -/

def read_url_content (fetch : FetchResult) (convert : String → Except String String) (url : String) : Json :=
  match fetch with
  | FetchResult.exn e => envelope ("Error accessing " ++ url ++ ": " ++ e)
  | FetchResult.resp status reason content_type response_text =>
    if pyContains "Sign in to GitHub" response_text || status == 401 then
      envelope "❌ Authentication failed or expired. Please update your INTRANET_SESSION_COOKIE environment variable with a fresh cookie value."
    else if status == 404 then
      envelope ("❌ Page not found: " ++ url)
    else if status != 200 then
      envelope ("❌ HTTP " ++ toString status ++ ": " ++ reason ++ ". Please check the URL or try again.")
    else if pyContains "html" (pyLower content_type) then
      match convert response_text with
      | Except.ok markdown_content =>
        envelope ("# Content from " ++ url ++ "\n\n" ++ cleanupLines markdown_content)
      | Except.error _ =>
        envelope ("# Content from " ++ url ++ "\n\n" ++ response_text)
    else
      envelope ("# Content from " ++ url ++ "\n\n" ++ response_text)

/-- `read_intranet_url` (server.py lines 439-460); the credential is the
optional `INTRANET_SESSION_COOKIE` value. -/
def read_intranet_url (cookie : Option String) (fetch : FetchResult) (convert : String → Except String String) (url : String) : Json :=
  if !cookie.isSome then
    envelope "❌ This tool requires authentication.\n\nThe intranet requires authentication via the INTRANET_SESSION_COOKIE environment variable."
  else if !(pyStartsWith "https://intranet.giantswarm.io/" url) then
    envelope "❌ URL must be from the Giant Swarm intranet (https://intranet.giantswarm.io/)."
  else
    read_url_content fetch convert url

/-- `read_handbook_url` (server.py lines 462-477). -/
def read_handbook_url (fetch : FetchResult) (convert : String → Except String String) (url : String) : Json :=
  if !(pyStartsWith "https://handbook.giantswarm.io/" url) then
    envelope "❌ URL must be from the Giant Swarm handbook (https://handbook.giantswarm.io/)."
  else
    read_url_content fetch convert url

/-! ### Query construction (server.py lines 203-257) -/

/-- The base relevance query (server.py lines 204-220): a boosted
`simple_query_string` wrapped in a `function_score` with the four fixed
weight rules.  The float weights `0.01` and `0.0001` are the rationals
1/100 and 1/10000. -/
def base_query (term : String) : Json :=
  Json.obj [("function_score", Json.obj [
    ("query", Json.obj [("simple_query_string", Json.obj [
      ("fields", Json.arr [Json.str "title^5", Json.str "uri^5", Json.str "description^5", Json.str "text"]),
      ("default_operator", Json.str "AND"),
      ("query", Json.str term)])]),
    ("functions", Json.arr [
      Json.obj [("filter", Json.obj [("term", Json.obj [("type", Json.str "Intranet")])]), ("weight", Json.num 10)],
      Json.obj [("filter", Json.obj [("term", Json.obj [("type", Json.str "Blog")])]), ("weight", Json.flt (1/100))],
      Json.obj [("filter", Json.obj [("term", Json.obj [("breadcrumb_1", Json.str "changes")])]), ("weight", Json.flt (1/10000))],
      Json.obj [("filter", Json.obj [("term", Json.obj [("breadcrumb_1", Json.str "api")])]), ("weight", Json.flt (1/10000))]])])]

/-- The per-segment match clause for position `n` (1-based):
`{"match": {f"breadcrumb_{n}": breadcrumb}}`. -/
def breadcrumbClause (n : Nat) (breadcrumb : String) : Json :=
  Json.obj [("match", Json.obj [("breadcrumb_" ++ toString n, Json.str breadcrumb)])]

/-- The loop of server.py lines 231-234: one positional match clause
per breadcrumb segment, counter `n` starting at 1. -/
def breadcrumbClauses (n : Nat) : List String → List Json
  | [] => []
  | breadcrumb :: rest => breadcrumbClause n breadcrumb :: breadcrumbClauses (n + 1) rest

/-- server.py lines 222-234: the base query, then the exact-match type
clause when a type filter is given, then the positional breadcrumb
clauses.  (The source guards the loop with `breadcrumb_filter != []`,
which is immaterial: iterating an empty list appends nothing.) -/
def must_clauses (term : String) (type_filter : String) (breadcrumb_filter : List String) : List Json :=
  [base_query term]
  ++ (if type_filter != "" then [Json.obj [("term", Json.obj [("type", Json.str type_filter)])]] else [])
  ++ breadcrumbClauses 1 breadcrumb_filter

/-- server.py lines 236-243: wrap in `bool`/`must` when any filter was
added, otherwise emit the base query unwrapped. -/
def buildQuery (term : String) (type_filter : String) (breadcrumb_filter : List String) : Json :=
  let mc := must_clauses term type_filter breadcrumb_filter
  if mc.length > 1 then
    Json.obj [("bool", Json.obj [("must", Json.arr mc)])]
  else
    base_query term

/-- The full POST payload (server.py lines 245-257). -/
def buildPayload (term : String) (start_index : Int) (size : Int) (type_filter : String) (breadcrumb_filter : List String) : Json :=
  Json.obj [
    ("from", Json.num start_index),
    ("size", Json.num size),
    ("sort", Json.arr [Json.str "_score"]),
    ("_source", Json.obj [("excludes", Json.arr [Json.str "text", Json.str "body"])]),
    ("query", buildQuery term type_filter breadcrumb_filter),
    ("highlight", Json.obj [("fields", Json.obj [
      ("body", Json.obj [("type", Json.str "unified"), ("number_of_fragments", Json.num 1), ("no_match_size", Json.num 200), ("fragment_size", Json.num 150)]),
      ("title", Json.obj [("type", Json.str "unified"), ("number_of_fragments", Json.num 1)])])])]

/-! ### Result rendering (server.py lines 336-387) -/

/-- The unauthenticated-mode informational note (server.py line 349). -/
def publicNote : String :=
  "ℹ️ **Note:** Searching public documentation only. For intranet access, set the INTRANET_SESSION_COOKIE environment variable.\n\n"

/-- One numbered hit entry (server.py lines 357-375): lookups with
defaults, title-as-link, type, breadcrumb path joined by " / ",
description line only when non-empty, excerpt line only when truthy. -/
def renderHit (n : Int) (hit : Json) : Except PyErr String := do
  let source ← pyGet hit "_source" (Json.obj [])
  let title ← pyGet source "title" (Json.str "")
  let description ← pyGet source "description" (Json.str "")
  let uri ← pyGet source "url" (Json.str "No URL")
  let typeVal ← pyGet source "type" (Json.str "Unknown")
  let breadcrumbVal ← pyGet source "breadcrumb" (Json.arr [])
  let breadcrumbPath ← pyJoinSep " / " breadcrumbVal
  let entry := toString n ++ (". **[" ++ pyStr title ++ "](" ++ pyStr uri ++ ")**\n")
  let entry := entry ++ ("   **Type:** " ++ pyStr typeVal ++ "\n")
  let entry := entry ++ ("   **Breadcrumb:** " ++ breadcrumbPath ++ "\n")
  let entry := entry ++ (if pyEqStrLit description "" then "" else "   **Description:** " ++ pyStr description ++ "\n")
  let highlight ← pyGet hit "highlight" (Json.obj [])
  let excerptArr ← pyGet highlight "body" (Json.arr [Json.str ""])
  let excerpt ← pyIndexZero excerptArr
  let entry := entry ++ (if pyTruthy excerpt then "   **Excerpt:** " ++ pyStr excerpt ++ "\n" else "")
  pure (entry ++ "\n")

/-- The loop of server.py lines 355-375, with the running entry number. -/
def renderHits (n : Int) : List Json → Except PyErr String
  | [] => pure ""
  | hit :: rest => do
    let entry ← renderHit n hit
    let others ← renderHits (n + 1) rest
    pure (entry ++ others)

/-- The `hits.total` value the report shows: the source's
`response_json.get('hits', {}).get('total', 0)` (total function; the
fallback arms are unreachable whenever `renderResults` succeeds). -/
def totalHitsOf (response_json : Json) : Json :=
  match response_json with
  | Json.obj fields =>
    match (List.lookup "hits" fields).getD (Json.obj []) with
    | Json.obj inner => (List.lookup "total" inner).getD (Json.num 0)
    | _ => Json.num 0
  | _ => Json.num 0

/-- server.py lines 336-381: extract `hits.hits` and `hits.total` with
defaults, then build the report body. -/
def renderResults (is_authenticated : Bool) (term : String) (start_index : Int) (response_json : Json) : Except PyErr String := do
  let hitsOuter ← pyGet response_json "hits" (Json.obj [])
  let hitsJ ← pyGet hitsOuter "hits" (Json.arr [])
  let totalOuter ← pyGet response_json "hits" (Json.obj [])
  let total_hits ← pyGet totalOuter "total" (Json.num 0)
  let hits ← pyIterable hitsJ
  let body := "# Search results for " ++ term ++ "\n\n"
  let body := body ++ (if is_authenticated then "" else publicNote)
  let body := body ++ ("Showing " ++ toString hits.length ++ " out of " ++ pyStr total_hits ++ " search results")
  let body := body ++ (if start_index > 0 then ", starting at " ++ toString (start_index + 1) else "")
  let body := body ++ "\n\n"
  let entries ← renderHits (start_index + 1) hits
  pure (body ++ entries)

/-! ### The `search` tool (server.py lines 170-393)

The outbound POST is abstracted as a `net` oracle from the payload to a
`NetResult`; `cookie` is the optional `INTRANET_SESSION_COOKIE` value.
As in the source, the inner `except KeyError` turns a KeyError into the
"Unexpected response format" message, and the outer `except Exception`
turns any other exception into the generic access error. -/
def search (cookie : Option String) (net : Json → NetResult) (term : String)
    (start_index : Int) (size : Int) (type_filter : String) (breadcrumb_filter : List String) : Json :=
  let is_authenticated := cookie.isSome
  let url := if is_authenticated then "https://intranet.giantswarm.io/searchapi/"
             else "https://docs.giantswarm.io/searchapi/"
  if !is_authenticated && type_filter == "Intranet" then
    envelope "❌ Cannot search Intranet resources without authentication. Please set the INTRANET_SESSION_COOKIE environment variable or search without the Intranet filter."
  else
    match net (buildPayload term start_index size type_filter breadcrumb_filter) with
    | NetResult.exn e => envelope ("Error accessing " ++ url ++ ": " ++ e)
    | NetResult.resp status reason response_text parsed =>
      match parsed with
      | none =>
        envelope ("❌ Invalid JSON response from server.\n\nResponse status: " ++ toString status
          ++ "\nResponse preview: " ++ pySlice 200 response_text)
      | some response_json =>
        if pyContains "Sign in to GitHub" response_text || status == 401 then
          if is_authenticated then
            envelope "❌ Authentication expired. Your INTRANET_SESSION_COOKIE has expired.\n\nTo search public documentation, remove the INTRANET_SESSION_COOKIE environment variable and try again.\n\nTo continue accessing intranet resources, update INTRANET_SESSION_COOKIE with a fresh cookie value."
          else
            envelope "❌ Authentication required for this resource. Please set the INTRANET_SESSION_COOKIE environment variable."
        else if pyStartsWith "<" (pyStrip response_text) then
          if is_authenticated then
            envelope "❌ Authentication expired. Your INTRANET_SESSION_COOKIE has expired.\n\nTo search public documentation, remove the INTRANET_SESSION_COOKIE environment variable and try again.\n\nTo continue accessing intranet resources, update INTRANET_SESSION_COOKIE with a fresh cookie value."
          else
            envelope "❌ Got HTML response instead of expected JSON. The search endpoint may be unavailable or requires authentication."
        else if status != 200 then
          envelope ("❌ HTTP " ++ toString status ++ ": " ++ reason ++ ". Please try again.")
        else
          match renderResults is_authenticated term start_index response_json with
          | Except.ok body => envelope body
          | Except.error (PyErr.keyError m) =>
            envelope ("❌ Unexpected response format. Missing key: " ++ pyErrText (PyErr.keyError m))
          | Except.error e => envelope ("Error accessing " ++ url ++ ": " ++ pyErrText e)

/-- `search_runbook` (server.py lines 395-415). -/
def search_runbook (cookie : Option String) (net : Json → NetResult) (term : String)
    (start_index : Int) (size : Int) : Json :=
  if !cookie.isSome then
    envelope "❌ This tool requires authentication.\n\nRunbooks are internal intranet resources. Please set the INTRANET_SESSION_COOKIE environment variable."
  else
    search cookie net term start_index size "" ["support-and-ops", "runbooks"]

/-- `search_ops_recipe` (server.py lines 417-437). -/
def search_ops_recipe (cookie : Option String) (net : Json → NetResult) (term : String)
    (start_index : Int) (size : Int) : Json :=
  if !cookie.isSome then
    envelope "❌ This tool requires authentication.\n\nOps Recipes are internal intranet resources. Please set the INTRANET_SESSION_COOKIE environment variable."
  else
    search cookie net term start_index size "" ["support-and-ops", "ops-recipes"]

/-- Recognizes a positional breadcrumb match clause
`{"match": {...}}` inside the must list (the base query is keyed
`function_score` and the type clause `term`, so neither matches). -/
def isMatchClause : Json → Bool
  | Json.obj [("match", _)] => true
  | _ => false

/-! ### Well-typed hits and field selectors (for the rendering claims)

`wellTypedHit` is a sufficient condition for rendering to succeed: the
hit is a dict, its `_source` (when present) is a dict whose
`breadcrumb` (when present) is a list of strings, and its `highlight`
(when present) is a dict whose `body` (when present) is a non-empty
list.  All fields may be missing.  The selectors mirror the renderer's
`.get` chains as total functions. -/

def wellTypedSource : Json → Bool
  | Json.obj src =>
    (match List.lookup "breadcrumb" src with
     | none => true
     | some (Json.arr items) => items.all isStrB
     | some _ => false)
  | _ => false

def wellTypedSourceOf (fields : List (String × Json)) : Bool :=
  match List.lookup "_source" fields with
  | none => true
  | some s => wellTypedSource s

def wellTypedHighlightOf (fields : List (String × Json)) : Bool :=
  match List.lookup "highlight" fields with
  | none => true
  | some (Json.obj h) =>
    (match List.lookup "body" h with
     | none => true
     | some (Json.arr (_ :: _)) => true
     | some _ => false)
  | some _ => false

def wellTypedHit : Json → Bool
  | Json.obj fields => wellTypedSourceOf fields && wellTypedHighlightOf fields
  | _ => false

/-- The value the renderer reads as `hit.get('_source', {}).get(key, d)`. -/
def hitSourceField (hit : Json) (key : String) (d : Json) : Json :=
  match hit with
  | Json.obj fields =>
    match List.lookup "_source" fields with
    | some (Json.obj src) => (List.lookup key src).getD d
    | _ => d
  | _ => d

/-- The breadcrumb path string the renderer produces for a well-typed hit. -/
def hitBreadcrumbPath (hit : Json) : String :=
  match hitSourceField hit "breadcrumb" (Json.arr []) with
  | Json.arr items =>
    match strList items with
    | Except.ok parts => String.intercalate " / " parts
    | Except.error _ => ""
  | Json.str s => String.intercalate " / " (s.toList.map String.singleton)
  | _ => ""

/-- The excerpt value `hit.get('highlight', {}).get('body', [''])[0]`
for a well-typed hit. -/
def hitExcerpt (hit : Json) : Json :=
  match hit with
  | Json.obj fields =>
    match List.lookup "highlight" fields with
    | some (Json.obj h) =>
      match List.lookup "body" h with
      | some (Json.arr (x :: _)) => x
      | _ => Json.str ""
    | _ => Json.str ""
  | _ => Json.str ""

/-- Concatenation of a list of strings (used to state the per-entry
decomposition of a rendered report). -/
def sjoin : List String → String
  | [] => ""
  | s :: rest => s ++ sjoin rest

/-- No two adjacent lines are both blank (the collapse invariant of
the cleanup loop). -/
def noTwoBlank : List (List Char) → Prop
  | [] => True
  | [_] => True
  | a :: b :: rest => (a ≠ [] ∨ b ≠ []) ∧ noTwoBlank (b :: rest)

/-! ### Helper lemmas -/

theorem startsWithL_append (p t : List Char) : startsWithL p (p ++ t) = true := by
  induction p with
  | nil => rfl
  | cons a as ih => simp [startsWithL, ih]

theorem containsL_append_middle (n x y : List Char) : containsL n (x ++ n ++ y) = true := by
  induction x with
  | nil =>
    rw [containsL.eq_def]
    simp [startsWithL_append]
  | cons c t ih =>
    rw [containsL.eq_def]
    simp only [List.cons_append, Bool.or_eq_true]
    right
    exact ih

theorem pyContains_of_middle (m x y : String) : pyContains m (x ++ m ++ y) = true := by
  unfold pyContains
  have h : (x ++ m ++ y).toList = x.toList ++ m.toList ++ y.toList := by
    simp [String.toList, String.data_append]
  rw [h]
  exact containsL_append_middle m.toList x.toList y.toList

theorem pyStartsWith_of_append (p t : String) : pyStartsWith p (p ++ t) = true := by
  unfold pyStartsWith
  have h : (p ++ t).toList = p.toList ++ t.toList := by
    simp [String.toList, String.data_append]
  rw [h]
  exact startsWithL_append p.toList t.toList

theorem except_bind_ok {α β : Type} (a : α) (f : α → Except PyErr β) :
    (Except.ok a >>= f : Except PyErr β) = f a := rfl

theorem except_pure_eq {α : Type} (a : α) : (pure a : Except PyErr α) = Except.ok a := rfl

theorem except_bind_error {α β : Type} (err : PyErr) (f : α → Except PyErr β) :
    (Except.error err >>= f : Except PyErr β) = Except.error err := rfl


theorem breadcrumbClauses_length (bf : List String) (n : Nat) :
    (breadcrumbClauses n bf).length = bf.length := by
  induction bf generalizing n with
  | nil => rfl
  | cons b rest ih => simp [breadcrumbClauses, ih]

theorem breadcrumbClauses_getElem (bf : List String) (n i : Nat) :
    (breadcrumbClauses n bf)[i]? = Option.map (fun b => breadcrumbClause (n + i) b) bf[i]? := by
  induction bf generalizing n i with
  | nil => simp [breadcrumbClauses]
  | cons b rest ih =>
    cases i with
    | zero => simp [breadcrumbClauses]
    | succ j =>
      simp only [breadcrumbClauses, List.getElem?_cons_succ]
      rw [ih (n + 1) j]
      have e : n + 1 + j = n + (j + 1) := by omega
      rw [e]

theorem must_clauses_cons (term type_filter : String) (bf : List String) :
    must_clauses term type_filter bf =
      base_query term ::
        ((if type_filter != "" then [Json.obj [("term", Json.obj [("type", Json.str type_filter)])]] else [])
          ++ breadcrumbClauses 1 bf) := by
  simp [must_clauses]

theorem must_clauses_length_gt_one (term type_filter : String) (bf : List String)
    (h : type_filter ≠ "" ∨ bf ≠ []) :
    (must_clauses term type_filter bf).length > 1 := by
  simp only [must_clauses, List.length_append, List.length_cons, List.length_singleton,
    breadcrumbClauses_length]
  rcases h with h | h
  · rw [if_pos (by simpa using h)]
    simp
    omega
  · have : bf.length > 0 := List.length_pos.mpr h
    split <;> simp <;> omega

/-- Claim C3: calling `search` with `type_filter = "Intranet"` and no
credential set returns the validation-error envelope; the result is the
same for every network oracle `net`, so no network request can have
influenced it — the guard returns before the POST is reached. -/
theorem search_intranet_filter_unauthenticated (term : String) (start_index size : Int)
    (breadcrumb_filter : List String) (net : Json → NetResult) :
    search none net term start_index size "Intranet" breadcrumb_filter =
      envelope "❌ Cannot search Intranet resources without authentication. Please set the INTRANET_SESSION_COOKIE environment variable or search without the Intranet filter." := by
  rfl

/-- Claim C5: for a breadcrumb filter of length N the must list contains
exactly the N positional match clauses `breadcrumb_1 .. breadcrumb_N`,
in input order (position i carries field `breadcrumb_(i+1)` and the i-th
input value), and whenever the filter is non-empty these clauses are
part of the constructed bool query. -/
theorem search_breadcrumb_positional_clauses :
    ∀ (term type_filter : String) (bf : List String),
      List.filter isMatchClause (must_clauses term type_filter bf) = breadcrumbClauses 1 bf
      ∧ (breadcrumbClauses 1 bf).length = bf.length
      ∧ (∀ i b, bf[i]? = some b → (breadcrumbClauses 1 bf)[i]? = some (breadcrumbClause (i + 1) b))
      ∧ (bf ≠ [] → buildQuery term type_filter bf =
           Json.obj [("bool", Json.obj [("must", Json.arr (must_clauses term type_filter bf))])]) := by
  intro term type_filter bf
  refine ⟨?_, breadcrumbClauses_length bf 1, ?_, ?_⟩
  · have hbase : isMatchClause (base_query term) = false := rfl
    have hbc : ∀ l n, List.filter isMatchClause (breadcrumbClauses n l) = breadcrumbClauses n l := by
      intro l
      induction l with
      | nil => intro n; rfl
      | cons b rest ih =>
        intro n
        simp [breadcrumbClauses, List.filter_cons, isMatchClause, breadcrumbClause, ih]
    have hone : List.filter isMatchClause [base_query term] = [] := rfl
    have htwo : List.filter isMatchClause
        (if type_filter != "" then [Json.obj [("term", Json.obj [("type", Json.str type_filter)])]] else []) = [] := by
      split <;> rfl
    simp only [must_clauses, List.filter_append, hone, htwo, hbc, List.nil_append]
  · intro i b hib
    rw [breadcrumbClauses_getElem bf 1 i, hib]
    simp [Nat.add_comm]
  · intro hbf
    have := must_clauses_length_gt_one term type_filter bf (Or.inr hbf)
    unfold buildQuery
    simp only [gt_iff_lt] at this ⊢
    rw [if_pos this]

/-- Claim C6: with a type filter and/or a non-empty breadcrumb filter
the query is a `bool`/`must` conjunction that keeps the base scored
query as its first clause; with neither filter the query is exactly the
base scored query, unwrapped. -/
theorem search_query_bool_wrapping :
    ∀ (term type_filter : String) (bf : List String),
      ((type_filter ≠ "" ∨ bf ≠ []) →
        base_query term ∈ must_clauses term type_filter bf
        ∧ ∃ rest, buildQuery term type_filter bf =
            Json.obj [("bool", Json.obj [("must", Json.arr (base_query term :: rest))])])
      ∧ (type_filter = "" → bf = [] → buildQuery term type_filter bf = base_query term) := by
  intro term type_filter bf
  constructor
  · intro h
    constructor
    · rw [must_clauses_cons]
      exact List.mem_cons_self _ _
    · refine ⟨(if type_filter != "" then [Json.obj [("term", Json.obj [("type", Json.str type_filter)])]] else [])
          ++ breadcrumbClauses 1 bf, ?_⟩
      have hlen := must_clauses_length_gt_one term type_filter bf h
      unfold buildQuery
      simp only [gt_iff_lt] at hlen ⊢
      rw [if_pos hlen, ← must_clauses_cons]
  · intro h1 h2
    subst h1 h2
    rfl

/-- Claim C8: when the fetched page is HTML and the markup-to-text
conversion raises, `_read_url_content` returns the raw body under the
standard "# Content from url" header, not an error message. -/
theorem read_url_conversion_failure_raw_fallback :
    ∀ (reason content_type body url emsg : String) (convert : String → Except String String),
      pyContains "Sign in to GitHub" body = false →
      pyContains "html" (pyLower content_type) = true →
      convert body = Except.error emsg →
      read_url_content (FetchResult.resp 200 reason content_type body) convert url =
        envelope ("# Content from " ++ url ++ "\n\n" ++ body) := by
  intro reason content_type body url emsg convert h1 h2 h3
  simp only [read_url_content, h1, h2, h3, Bool.false_or]
  norm_num

/-- Witness for C8 at a concrete page. -/
theorem read_url_conversion_failure_raw_fallback_witness :
    read_url_content (FetchResult.resp 200 "OK" "text/html" "<p>x</p>")
      (fun _ => Except.error "boom") "https://handbook.giantswarm.io/a" =
      envelope "# Content from https://handbook.giantswarm.io/a\n\n<p>x</p>" :=
  read_url_conversion_failure_raw_fallback "OK" "text/html" "<p>x</p>"
    "https://handbook.giantswarm.io/a" "boom" (fun _ => Except.error "boom")
    (by decide) (by decide) rfl

theorem read_url_content_shape (fetch : FetchResult) (convert : String → Except String String) (url : String) :
    ∃ s, read_url_content fetch convert url = envelope s := by
  unfold read_url_content
  repeat' split
  all_goals exact ⟨_, rfl⟩

theorem search_shape (cookie : Option String) (net : Json → NetResult) (term : String)
    (start_index size : Int) (type_filter : String) (breadcrumb_filter : List String) :
    ∃ s, search cookie net term start_index size type_filter breadcrumb_filter = envelope s := by
  unfold search
  dsimp only
  repeat' split
  all_goals exact ⟨_, rfl⟩

/-- Claim C1: every public operation, on every well-typed input and
every upstream response or transport exception, returns exactly the
`{"content": [{"type": "text", "text": ...}]}` envelope. -/
theorem all_operations_return_text_envelope :
    (∀ cookie net term start_index size type_filter breadcrumb_filter,
      ∃ s, search cookie net term start_index size type_filter breadcrumb_filter = envelope s)
    ∧ (∀ cookie net term start_index size,
      ∃ s, search_runbook cookie net term start_index size = envelope s)
    ∧ (∀ cookie net term start_index size,
      ∃ s, search_ops_recipe cookie net term start_index size = envelope s)
    ∧ (∀ cookie fetch convert url,
      ∃ s, read_intranet_url cookie fetch convert url = envelope s)
    ∧ (∀ fetch convert url,
      ∃ s, read_handbook_url fetch convert url = envelope s) := by
  refine ⟨search_shape, ?_, ?_, ?_, ?_⟩
  · intro cookie net term start_index size
    unfold search_runbook
    split
    · exact ⟨_, rfl⟩
    · exact search_shape cookie net term start_index size "" ["support-and-ops", "runbooks"]
  · intro cookie net term start_index size
    unfold search_ops_recipe
    split
    · exact ⟨_, rfl⟩
    · exact search_shape cookie net term start_index size "" ["support-and-ops", "ops-recipes"]
  · intro cookie fetch convert url
    unfold read_intranet_url
    split
    · exact ⟨_, rfl⟩
    · split
      · exact ⟨_, rfl⟩
      · exact read_url_content_shape fetch convert url
  · intro fetch convert url
    unfold read_handbook_url
    split
    · exact ⟨_, rfl⟩
    · exact read_url_content_shape fetch convert url

/-- Claim C2 (amended): the page reads check the sign-in marker before
anything else and answer with the fixed authentication message (no JSON
parsing exists on that path and no part of the body is echoed); `search`
however attempts JSON parsing first, so an HTML sign-in page — which
never parses as JSON — yields the invalid-JSON error carrying a 200-char
preview of the raw body, and the authentication branch is reached only
for bodies that do parse as JSON. -/
theorem signin_marker_handling :
    (∀ (status : Int) (reason content_type body url : String) (convert : String → Except String String),
       pyContains "Sign in to GitHub" body = true →
       read_url_content (FetchResult.resp status reason content_type body) convert url =
         envelope "❌ Authentication failed or expired. Please update your INTRANET_SESSION_COOKIE environment variable with a fresh cookie value.")
    ∧ (∀ (cookie : Option String) (term : String) (start_index size : Int)
         (type_filter : String) (breadcrumb_filter : List String)
         (status : Int) (reason body : String),
       (cookie.isSome = true ∨ (type_filter == "Intranet") = false) →
       search cookie (fun _ => NetResult.resp status reason body none) term start_index size type_filter breadcrumb_filter =
         envelope ("❌ Invalid JSON response from server.\n\nResponse status: " ++ toString status ++ "\nResponse preview: " ++ pySlice 200 body)) := by
  constructor
  · intro status reason ct body url convert h
    simp [read_url_content, h]
  · intro cookie term si sz tf bf status reason body h
    have hcond : (!cookie.isSome && (tf == "Intranet")) = false := by
      rcases h with h | h <;> simp [h]
    unfold search
    dsimp only
    rw [hcond]
    rfl

/-- Witness for the amended C2 at concrete inputs. -/
theorem signin_marker_handling_witness :
    read_url_content (FetchResult.resp 200 "OK" "text/html" "<p>Sign in to GitHub</p>")
        (fun s => Except.ok s) "https://intranet.giantswarm.io/x" =
      envelope "❌ Authentication failed or expired. Please update your INTRANET_SESSION_COOKIE environment variable with a fresh cookie value."
    ∧ search (some "c") (fun _ => NetResult.resp 200 "OK" "<p>" none) "t" 0 30 "" [] =
      envelope "❌ Invalid JSON response from server.\n\nResponse status: 200\nResponse preview: <p>" :=
  ⟨signin_marker_handling.1 200 "OK" "text/html" "<p>Sign in to GitHub</p>"
      "https://intranet.giantswarm.io/x" (fun s => Except.ok s) (by decide),
   signin_marker_handling.2 (some "c") "t" 0 30 "" [] 200 "OK" "<p>" (Or.inl rfl)⟩

/-- Counterexample for C2 as stated: on an HTML sign-in page, `search`
returns the invalid-JSON error — whose text embeds the raw HTML body —
and not either authentication-error message. -/
theorem search_html_signin_counterexample :
    search none (fun _ => NetResult.resp 200 "OK" "<html><head><title>Sign in to GitHub</title></head></html>" none) "test" 0 30 "" [] =
      envelope ("❌ Invalid JSON response from server.\n\nResponse status: 200\nResponse preview: <html><head><title>Sign in to GitHub</title></head></html>")
    ∧ pyContains "<html><head><title>Sign in to GitHub</title></head></html>"
        "❌ Invalid JSON response from server.\n\nResponse status: 200\nResponse preview: <html><head><title>Sign in to GitHub</title></head></html>" = true
    ∧ ("❌ Invalid JSON response from server.\n\nResponse status: 200\nResponse preview: <html><head><title>Sign in to GitHub</title></head></html>"
        ≠ "❌ Authentication required for this resource. Please set the INTRANET_SESSION_COOKIE environment variable.")
    ∧ ("❌ Invalid JSON response from server.\n\nResponse status: 200\nResponse preview: <html><head><title>Sign in to GitHub</title></head></html>"
        ≠ "❌ Authentication expired. Your INTRANET_SESSION_COOKIE has expired.\n\nTo search public documentation, remove the INTRANET_SESSION_COOKIE environment variable and try again.\n\nTo continue accessing intranet resources, update INTRANET_SESSION_COOKIE with a fresh cookie value.") :=
  ⟨rfl, by decide, by decide, by decide⟩

theorem renderResults_empty_hits (auth : Bool) (term : String) (si : Int)
    (fields : List (String × Json))
    (h : List.lookup "hits" fields = none ∨
      ∃ inner, List.lookup "hits" fields = some (Json.obj inner) ∧ List.lookup "hits" inner = none) :
    renderResults auth term si (Json.obj fields) =
      Except.ok ("# Search results for " ++ term ++ "\n\n"
        ++ (if auth then "" else publicNote)
        ++ ("Showing 0 out of " ++ pyStr (totalHitsOf (Json.obj fields)) ++ " search results")
        ++ (if si > 0 then ", starting at " ++ toString (si + 1) else "")
        ++ "\n\n") := by
  rcases h with h | ⟨inner, h1, h2⟩
  · unfold renderResults totalHitsOf
    dsimp only [pyGet]
    rw [h]
    exact congrArg Except.ok (String.append_empty _)
  · unfold renderResults totalHitsOf
    dsimp only [pyGet]
    rw [h1]
    dsimp only [Option.getD]
    rw [except_bind_ok]
    dsimp only
    rw [h2]
    exact congrArg Except.ok (String.append_empty _)

/-- Counterexample for C4 as stated: with body `{}` (parsed, but with
`hits.hits` and `hits.total` both missing) `search` renders an ordinary
empty report; no "Unexpected response format" message appears. -/
theorem search_missing_hits_counterexample :
    search none (fun _ => NetResult.resp 200 "OK" "\x7b\x7d" (some (Json.obj []))) "kubernetes" 0 30 "" [] =
      envelope ("# Search results for kubernetes\n\n" ++ publicNote ++ "Showing 0 out of 0 search results\n\n")
    ∧ pyContains "Unexpected response format"
        ("# Search results for kubernetes\n\n" ++ publicNote ++ "Showing 0 out of 0 search results\n\n") = false :=
  ⟨rfl, by decide⟩

/-- Witness for C5 at a concrete breadcrumb filter of length 2. -/
theorem search_breadcrumb_positional_clauses_witness :
    (breadcrumbClauses 1 ["docs", "support-and-ops"])[1]? = some (breadcrumbClause 2 "support-and-ops")
    ∧ buildQuery "k" "" ["docs", "support-and-ops"] =
        Json.obj [("bool", Json.obj [("must", Json.arr (must_clauses "k" "" ["docs", "support-and-ops"]))])] := by
  have h := search_breadcrumb_positional_clauses "k" "" ["docs", "support-and-ops"]
  exact ⟨h.2.2.1 1 "support-and-ops" rfl, h.2.2.2 (by decide)⟩

/-- Witness for C6 at a concrete type filter and at no filters. -/
theorem search_query_bool_wrapping_witness :
    base_query "k" ∈ must_clauses "k" "Docs" []
    ∧ (∃ rest, buildQuery "k" "Docs" [] =
        Json.obj [("bool", Json.obj [("must", Json.arr (base_query "k" :: rest))])])
    ∧ buildQuery "k" "" [] = base_query "k" := by
  have h := search_query_bool_wrapping "k" "Docs" []
  have h2 := search_query_bool_wrapping "k" "" []
  exact ⟨(h.1 (Or.inl (by decide))).1, (h.1 (Or.inl (by decide))).2, h2.2 rfl rfl⟩



theorem strList_all_str (items : List Json) (h : items.all isStrB = true) :
    ∃ parts, strList items = Except.ok parts := by
  induction items with
  | nil => exact ⟨[], rfl⟩
  | cons x rest ih =>
    simp only [List.all_cons, Bool.and_eq_true] at h
    obtain ⟨parts, hp⟩ := ih h.2
    cases x with
    | str s => exact ⟨s :: parts, by simp [strList, hp]⟩
    | null => simp [isStrB] at h
    | bool b => simp [isStrB] at h
    | num n => simp [isStrB] at h
    | flt q => simp [isStrB] at h
    | arr a => simp [isStrB] at h
    | obj o => simp [isStrB] at h

theorem source_chain (fields : List (String × Json)) (ha : wellTypedSourceOf fields = true) :
    ∃ S, pyGet (Json.obj fields) "_source" (Json.obj []) = Except.ok S
      ∧ pyGet S "title" (Json.str "") = Except.ok (hitSourceField (Json.obj fields) "title" (Json.str ""))
      ∧ pyGet S "description" (Json.str "") = Except.ok (hitSourceField (Json.obj fields) "description" (Json.str ""))
      ∧ pyGet S "url" (Json.str "No URL") = Except.ok (hitSourceField (Json.obj fields) "url" (Json.str "No URL"))
      ∧ pyGet S "type" (Json.str "Unknown") = Except.ok (hitSourceField (Json.obj fields) "type" (Json.str "Unknown"))
      ∧ pyGet S "breadcrumb" (Json.arr []) = Except.ok (hitSourceField (Json.obj fields) "breadcrumb" (Json.arr []))
      ∧ pyJoinSep " / " (hitSourceField (Json.obj fields) "breadcrumb" (Json.arr [])) = Except.ok (hitBreadcrumbPath (Json.obj fields)) := by
  rw [wellTypedSourceOf] at ha
  dsimp only [hitSourceField, hitBreadcrumbPath]
  cases hsrc : List.lookup "_source" fields with
  | none =>
    try rw [hsrc] at ha
    refine ⟨Json.obj [], ?_, rfl, rfl, rfl, rfl, rfl, rfl⟩
    show Except.ok ((List.lookup "_source" fields).getD (Json.obj [])) = Except.ok (Json.obj [])
    rw [hsrc]
    rfl
  | some s =>
    rw [hsrc] at ha
    dsimp only at ha
    have hfirst : ∀ j, s = j → pyGet (Json.obj fields) "_source" (Json.obj []) = Except.ok j := by
      intro j hj
      show Except.ok ((List.lookup "_source" fields).getD (Json.obj [])) = Except.ok j
      rw [hsrc, hj]
      rfl
    cases s with
    | obj src =>
      simp only [wellTypedSource] at ha
      refine ⟨Json.obj src, hfirst (Json.obj src) rfl, rfl, rfl, rfl, rfl, rfl, ?_⟩
      dsimp only
      cases hbc : List.lookup "breadcrumb" src with
      | none =>
        try rw [hbc]
        rfl
      | some bc =>
        rw [hbc] at ha
        try rw [hbc]
        cases bc with
        | arr items =>
          dsimp only at ha
          obtain ⟨parts, hp⟩ := strList_all_str items ha
          dsimp only [pyJoinSep, Option.getD]
          rw [hp]
        | null => simp at ha
        | bool b => simp at ha
        | num m => simp at ha
        | flt q => simp at ha
        | str s2 => simp at ha
        | obj o => simp at ha
    | null => simp [wellTypedSource] at ha
    | bool b => simp [wellTypedSource] at ha
    | num m => simp [wellTypedSource] at ha
    | flt q => simp [wellTypedSource] at ha
    | str s2 => simp [wellTypedSource] at ha
    | arr a => simp [wellTypedSource] at ha

theorem highlight_chain (fields : List (String × Json)) (hb : wellTypedHighlightOf fields = true) :
    ∃ H EA, pyGet (Json.obj fields) "highlight" (Json.obj []) = Except.ok H
      ∧ pyGet H "body" (Json.arr [Json.str ""]) = Except.ok EA
      ∧ pyIndexZero EA = Except.ok (hitExcerpt (Json.obj fields)) := by
  rw [wellTypedHighlightOf] at hb
  dsimp only [hitExcerpt]
  cases hhl : List.lookup "highlight" fields with
  | none =>
    try rw [hhl] at hb
    refine ⟨Json.obj [], Json.arr [Json.str ""], ?_, rfl, rfl⟩
    show Except.ok ((List.lookup "highlight" fields).getD (Json.obj [])) = Except.ok (Json.obj [])
    rw [hhl]
    rfl
  | some hl =>
    rw [hhl] at hb
    have hfirst : ∀ j, hl = j → pyGet (Json.obj fields) "highlight" (Json.obj []) = Except.ok j := by
      intro j hj
      show Except.ok ((List.lookup "highlight" fields).getD (Json.obj [])) = Except.ok j
      rw [hhl, hj]
      rfl
    cases hl with
    | obj h =>
      dsimp only at hb ⊢
      cases hbody : List.lookup "body" h with
      | none =>
        try rw [hbody] at hb
        refine ⟨Json.obj h, Json.arr [Json.str ""], hfirst (Json.obj h) rfl, ?_, rfl⟩
        show Except.ok ((List.lookup "body" h).getD (Json.arr [Json.str ""])) = Except.ok (Json.arr [Json.str ""])
        rw [hbody]
        rfl
      | some bd =>
        rw [hbody] at hb
        cases bd with
        | arr items =>
          cases items with
          | nil => simp at hb
          | cons x xs =>
            refine ⟨Json.obj h, Json.arr (x :: xs), hfirst (Json.obj h) rfl, ?_, rfl⟩
            show Except.ok ((List.lookup "body" h).getD (Json.arr [Json.str ""])) = Except.ok (Json.arr (x :: xs))
            rw [hbody]
            rfl
        | null => simp at hb
        | bool b => simp at hb
        | num m => simp at hb
        | flt q => simp at hb
        | str s => simp at hb
        | obj o => simp at hb
    | null => simp at hb
    | bool b => simp at hb
    | num m => simp at hb
    | flt q => simp at hb
    | str s => simp at hb
    | arr a => simp at hb

theorem renderHit_wellTyped (n : Int) (hit : Json) (hw : wellTypedHit hit = true) :
    renderHit n hit = Except.ok
      (toString n ++ (". **[" ++ pyStr (hitSourceField hit "title" (Json.str "")) ++ "](" ++ pyStr (hitSourceField hit "url" (Json.str "No URL")) ++ ")**\n")
       ++ ("   **Type:** " ++ pyStr (hitSourceField hit "type" (Json.str "Unknown")) ++ "\n")
       ++ ("   **Breadcrumb:** " ++ hitBreadcrumbPath hit ++ "\n")
       ++ (if pyEqStrLit (hitSourceField hit "description" (Json.str "")) "" then ""
           else "   **Description:** " ++ pyStr (hitSourceField hit "description" (Json.str "")) ++ "\n")
       ++ (if pyTruthy (hitExcerpt hit) then "   **Excerpt:** " ++ pyStr (hitExcerpt hit) ++ "\n" else "")
       ++ "\n") := by
  cases hit with
  | obj fields =>
    rw [wellTypedHit, Bool.and_eq_true] at hw
    obtain ⟨S, hS, ht, hd, hu, hty, hbc, hjoin⟩ := source_chain fields hw.1
    obtain ⟨H, EA, hH, hEA, hix⟩ := highlight_chain fields hw.2
    unfold renderHit
    simp only [hS, except_bind_ok, ht, hd, hu, hty, hbc, hjoin, hH, hEA, hix, except_pure_eq]
  | null => simp [wellTypedHit] at hw
  | bool b => simp [wellTypedHit] at hw
  | num m => simp [wellTypedHit] at hw
  | flt q => simp [wellTypedHit] at hw
  | str s => simp [wellTypedHit] at hw
  | arr a => simp [wellTypedHit] at hw

theorem append_empty_empty_nl (s : String) : s ++ "" ++ "" ++ "\n" = s ++ "\n" := by
  rw [String.append_empty, String.append_empty]

theorem except_isOk_iff {α : Type} (r : Except PyErr α) : r.isOk = true ↔ ∃ v, r = Except.ok v := by
  cases r <;> simp [Except.isOk, Except.toBool]

theorem renderHits_wellTyped_ok (hits : List Json) :
    ∀ n : Int, (∀ h ∈ hits, wellTypedHit h = true) → (renderHits n hits).isOk = true := by
  induction hits with
  | nil => intro n _; rfl
  | cons hit rest ih =>
    intro n hall
    have h1 := renderHit_wellTyped n hit (hall hit (List.mem_cons_self hit rest))
    have h2 := ih (n + 1) (fun h hm => hall h (List.mem_cons_of_mem hit hm))
    obtain ⟨es, hes⟩ := (except_isOk_iff _).mp h2
    unfold renderHits
    rw [h1, except_bind_ok, hes, except_bind_ok]
    rfl

/-- Claim C10: rendering is total over well-typed hit records.
A hit whose `_source` and `highlight` are missing renders with the
defaults (empty title, "No URL", "Unknown", empty breadcrumb, no
description line, no excerpt line); rendering succeeds on every
well-typed hit and hit list, never raising on a missing field; and when
the description value is empty and the excerpt falsy the entry consists
of exactly the four mandatory lines. -/
theorem search_hit_rendering_total_with_defaults :
    (∀ (n : Int) (fields : List (String × Json)),
       List.lookup "_source" fields = none → List.lookup "highlight" fields = none →
       renderHit n (Json.obj fields) =
         Except.ok (toString n ++ ". **[](No URL)**\n" ++ "   **Type:** Unknown\n" ++ "   **Breadcrumb:** \n" ++ "\n"))
    ∧ (∀ (n : Int) (hit : Json), wellTypedHit hit = true → (renderHit n hit).isOk = true)
    ∧ (∀ (n : Int) (hits : List Json), (∀ h ∈ hits, wellTypedHit h = true) → (renderHits n hits).isOk = true)
    ∧ (∀ (n : Int) (hit : Json) (e : String),
       wellTypedHit hit = true →
       renderHit n hit = Except.ok e →
       hitSourceField hit "description" (Json.str "") = Json.str "" →
       pyTruthy (hitExcerpt hit) = false →
       ∃ t u ty bc, e = toString n ++ (". **[" ++ t ++ "](" ++ u ++ ")**\n")
         ++ ("   **Type:** " ++ ty ++ "\n") ++ ("   **Breadcrumb:** " ++ bc ++ "\n") ++ "\n") := by
  refine ⟨?_, ?_, ?_, ?_⟩
  · intro n fields h1 h2
    unfold renderHit
    dsimp only [pyGet]
    rw [h1, h2]
    exact congrArg Except.ok (append_empty_empty_nl _)
  · intro n hit hw
    rw [renderHit_wellTyped n hit hw]
    rfl
  · intro n hits hall
    exact renderHits_wellTyped_ok hits n hall
  · intro n hit e hw hok hdesc hexc
    rw [renderHit_wellTyped n hit hw] at hok
    have he := (Except.ok.injEq _ _).mp hok.symm
    rw [hdesc, hexc] at he
    refine ⟨pyStr (hitSourceField hit "title" (Json.str "")),
            pyStr (hitSourceField hit "url" (Json.str "No URL")),
            pyStr (hitSourceField hit "type" (Json.str "Unknown")),
            hitBreadcrumbPath hit, ?_⟩
    rw [he]
    exact append_empty_empty_nl _

/-- Witness for C10 at concrete hits. -/
theorem search_hit_rendering_total_with_defaults_witness :
    renderHit 7 (Json.obj []) = Except.ok "7. **[](No URL)**\n   **Type:** Unknown\n   **Breadcrumb:** \n\n"
    ∧ (renderHits 1 [Json.obj [("_source", Json.obj [("title", Json.str "A")])]]).isOk = true := by
  have h := search_hit_rendering_total_with_defaults
  exact ⟨h.1 7 [] rfl rfl, h.2.2.1 1 [Json.obj [("_source", Json.obj [("title", Json.str "A")])]] (by decide)⟩

theorem renderResults_total_defaulted (auth : Bool) (term : String) (si : Int)
    (fields inner : List (String × Json)) (hitsList : List Json)
    (h1 : List.lookup "hits" fields = some (Json.obj inner))
    (h2 : List.lookup "hits" inner = some (Json.arr hitsList))
    (hw : ∀ h ∈ hitsList, wellTypedHit h = true) :
    ∃ b, renderResults auth term si (Json.obj fields) = Except.ok b := by
  obtain ⟨es, hes⟩ := (except_isOk_iff _).mp (renderHits_wellTyped_ok hitsList (si + 1) hw)
  refine (except_isOk_iff _).mp ?_
  unfold renderResults
  dsimp only [pyGet]
  rw [h1]
  dsimp only [Option.getD]
  rw [except_bind_ok]
  dsimp only
  rw [h2]
  dsimp only
  rw [except_bind_ok, except_bind_ok, except_bind_ok]
  dsimp only [pyIterable]
  rw [except_bind_ok, hes, except_bind_ok]
  rfl

set_option maxRecDepth 4000 in
/-- Claim C4 (amended): the missing `hits.hits` / `hits.total` keys are
silently defaulted by the `.get` chain and never themselves produce the
"Unexpected response format" message.  With `hits.hits` missing (either
the top-level `hits` key or the inner `hits` key), `search` renders a
normal empty report showing 0 hits out of the (defaulted) total; with
`hits.total` missing and the hits renderable, the total defaults to 0
and the ordinary success report is returned.  The "Unexpected response
format" branch is reachable, but only via a `KeyError(0)` raised while
rendering a hit whose `highlight.body` is a dict (its `[0]` subscript),
and the message then names key 0, never the missing hits key. -/
theorem search_missing_hits_defaults :
    (∀ (cookie : Option String) (term : String) (start_index size : Int)
       (type_filter : String) (breadcrumb_filter : List String)
       (reason body : String) (fields : List (String × Json)),
       (cookie.isSome = true ∨ (type_filter == "Intranet") = false) →
       pyContains "Sign in to GitHub" body = false →
       pyStartsWith "<" (pyStrip body) = false →
       (List.lookup "hits" fields = none ∨
         ∃ inner, List.lookup "hits" fields = some (Json.obj inner) ∧ List.lookup "hits" inner = none) →
       search cookie (fun _ => NetResult.resp 200 reason body (some (Json.obj fields))) term start_index size type_filter breadcrumb_filter =
         envelope ("# Search results for " ++ term ++ "\n\n"
           ++ (if cookie.isSome then "" else publicNote)
           ++ ("Showing 0 out of " ++ pyStr (totalHitsOf (Json.obj fields)) ++ " search results")
           ++ (if start_index > 0 then ", starting at " ++ toString (start_index + 1) else "")
           ++ "\n\n"))
    ∧ (∀ (cookie : Option String) (term : String) (start_index size : Int)
         (type_filter : String) (breadcrumb_filter : List String)
         (reason body : String) (fields inner : List (String × Json)) (hitsList : List Json),
       (cookie.isSome = true ∨ (type_filter == "Intranet") = false) →
       pyContains "Sign in to GitHub" body = false →
       pyStartsWith "<" (pyStrip body) = false →
       List.lookup "hits" fields = some (Json.obj inner) →
       List.lookup "hits" inner = some (Json.arr hitsList) →
       List.lookup "total" inner = none →
       (∀ h ∈ hitsList, wellTypedHit h = true) →
       totalHitsOf (Json.obj fields) = Json.num 0
       ∧ ∃ b, renderResults cookie.isSome term start_index (Json.obj fields) = Except.ok b
           ∧ search cookie (fun _ => NetResult.resp 200 reason body (some (Json.obj fields))) term start_index size type_filter breadcrumb_filter = envelope b)
    ∧ search none (fun _ => NetResult.resp 200 "OK"
        "\x7b\"hits\": \x7b\"hits\": [\x7b\"highlight\": \x7b\"body\": \x7b\x7d\x7d\x7d]\x7d\x7d"
        (some (Json.obj [("hits", Json.obj [("hits",
          Json.arr [Json.obj [("highlight", Json.obj [("body", Json.obj [])])]])])])))
        "t" 0 30 "" [] = envelope "❌ Unexpected response format. Missing key: 0" := by
  refine ⟨?_, ?_, by rfl⟩
  · intro cookie term si sz tf bf reason body fields hguard hm hs hcase
    have hcond : (!cookie.isSome && (tf == "Intranet")) = false := by
      rcases hguard with h | h <;> simp [h]
    have hrr := renderResults_empty_hits cookie.isSome term si fields hcase
    unfold search
    dsimp only
    rw [hcond, hm, hs, hrr]
    rfl
  · intro cookie term si sz tf bf reason body fields inner hitsList hguard hm hs h1 h2 h3 hw
    have hcond : (!cookie.isSome && (tf == "Intranet")) = false := by
      rcases hguard with h | h <;> simp [h]
    constructor
    · unfold totalHitsOf
      dsimp only
      rw [h1]
      dsimp only [Option.getD]
      rw [h3]
    · obtain ⟨b, hrr⟩ := renderResults_total_defaulted cookie.isSome term si fields inner hitsList h1 h2 hw
      refine ⟨b, hrr, ?_⟩
      unfold search
      dsimp only
      rw [hcond, hm, hs, hrr]
      rfl

/-- Witness for the amended C4: the body `{"hits": {}}` (inner hits and
total both missing) renders the empty report, and a present-but-empty
hits list with missing total defaults the total to 0. -/
theorem search_missing_hits_defaults_witness :
    search none (fun _ => NetResult.resp 200 "OK" "\x7b\"hits\": \x7b\x7d\x7d"
        (some (Json.obj [("hits", Json.obj [])]))) "k8s" 5 30 "" [] =
      envelope ("# Search results for k8s\n\nℹ️ **Note:** Searching public documentation only. For intranet access, set the INTRANET_SESSION_COOKIE environment variable.\n\nShowing 0 out of 0 search results, starting at 6\n\n")
    ∧ totalHitsOf (Json.obj [("hits", Json.obj [("hits", Json.arr [])])]) = Json.num 0 := by
  have h := search_missing_hits_defaults
  constructor
  · exact h.1 none "k8s" 5 30 "" [] "OK" "\x7b\"hits\": \x7b\x7d\x7d" [("hits", Json.obj [])]
      (Or.inr rfl) (by decide) (by decide) (Or.inr ⟨[], rfl, rfl⟩)
  · exact (h.2.1 none "k8s" 0 30 "" [] "OK" "\x7b\"hits\": \x7b\"hits\": []\x7d\x7d"
      [("hits", Json.obj [("hits", Json.arr [])])] [("hits", Json.arr [])] []
      (Or.inr rfl) (by decide) (by decide) rfl rfl rfl (by simp)).1



theorem startsWithL_append_pair (a b r : List Char) :
    startsWithL (a ++ b) (a ++ (b ++ r)) = true := by
  have h := startsWithL_append (a ++ b) r
  rwa [List.append_assoc] at h

theorem renderHit_starts (n : Int) (hit : Json) (e : String)
    (h : renderHit n hit = Except.ok e) :
    pyStartsWith (toString n ++ ". ") e = true := by
  unfold renderHit at h
  cases h1 : pyGet hit "_source" (Json.obj []) with
  | error err => rw [h1, except_bind_error] at h; exact Except.noConfusion h
  | ok S =>
  rw [h1, except_bind_ok] at h
  cases h2 : pyGet S "title" (Json.str "") with
  | error err => rw [h2, except_bind_error] at h; exact Except.noConfusion h
  | ok title =>
  rw [h2, except_bind_ok] at h
  cases h3 : pyGet S "description" (Json.str "") with
  | error err => rw [h3, except_bind_error] at h; exact Except.noConfusion h
  | ok description =>
  rw [h3, except_bind_ok] at h
  cases h4 : pyGet S "url" (Json.str "No URL") with
  | error err => rw [h4, except_bind_error] at h; exact Except.noConfusion h
  | ok uri =>
  rw [h4, except_bind_ok] at h
  cases h5 : pyGet S "type" (Json.str "Unknown") with
  | error err => rw [h5, except_bind_error] at h; exact Except.noConfusion h
  | ok typeVal =>
  rw [h5, except_bind_ok] at h
  cases h6 : pyGet S "breadcrumb" (Json.arr []) with
  | error err => rw [h6, except_bind_error] at h; exact Except.noConfusion h
  | ok breadcrumbVal =>
  rw [h6, except_bind_ok] at h
  cases h7 : pyJoinSep " / " breadcrumbVal with
  | error err => rw [h7, except_bind_error] at h; exact Except.noConfusion h
  | ok breadcrumbPath =>
  rw [h7, except_bind_ok] at h
  cases h8 : pyGet hit "highlight" (Json.obj []) with
  | error err => rw [h8, except_bind_error] at h; exact Except.noConfusion h
  | ok highlight =>
  rw [h8, except_bind_ok] at h
  cases h9 : pyGet highlight "body" (Json.arr [Json.str ""]) with
  | error err => rw [h9, except_bind_error] at h; exact Except.noConfusion h
  | ok excerptArr =>
  rw [h9, except_bind_ok] at h
  cases h10 : pyIndexZero excerptArr with
  | error err => rw [h10, except_bind_error] at h; exact Except.noConfusion h
  | ok excerpt =>
  rw [h10, except_bind_ok] at h
  have he : e = toString n ++ (". **[" ++ pyStr title ++ "](" ++ pyStr uri ++ ")**\n")
      ++ ("   **Type:** " ++ pyStr typeVal ++ "\n")
      ++ ("   **Breadcrumb:** " ++ breadcrumbPath ++ "\n")
      ++ (if pyEqStrLit description "" then "" else "   **Description:** " ++ pyStr description ++ "\n")
      ++ (if pyTruthy excerpt then "   **Excerpt:** " ++ pyStr excerpt ++ "\n" else "")
      ++ "\n" := by
    have := (Except.ok.injEq _ _).mp h
    exact this.symm
  rw [he]
  rw [show (". **[" : String) = ". " ++ "**[" from rfl]
  unfold pyStartsWith
  simp only [String.toList, String.data_append, List.append_assoc]
  exact startsWithL_append_pair _ _ _

theorem renderHits_parts (hits : List Json) :
    ∀ (n : Int) (es : String), renderHits n hits = Except.ok es →
    ∃ parts : List String, es = sjoin parts ∧ parts.length = hits.length ∧
      (∀ i (hi : i < parts.length),
        pyStartsWith (toString (n + (i : Int)) ++ ". ") (parts.get ⟨i, hi⟩) = true) := by
  induction hits with
  | nil =>
    intro n es h
    have he : es = "" := ((Except.ok.injEq _ _).mp h).symm
    exact ⟨[], by rw [he]; rfl, rfl, fun i hi => absurd hi (by simp)⟩
  | cons hit rest ih =>
    intro n es h
    unfold renderHits at h
    cases h1 : renderHit n hit with
    | error err => rw [h1, except_bind_error] at h; exact Except.noConfusion h
    | ok e =>
    rw [h1, except_bind_ok] at h
    cases h2 : renderHits (n + 1) rest with
    | error err => rw [h2, except_bind_error] at h; exact Except.noConfusion h
    | ok es' =>
    rw [h2, except_bind_ok] at h
    have he : es = e ++ es' := ((Except.ok.injEq _ _).mp h).symm
    obtain ⟨parts, hp1, hp2, hp3⟩ := ih (n + 1) es' h2
    refine ⟨e :: parts, ?_, by simp [hp2], ?_⟩
    · rw [he, hp1]; rfl
    · intro i hi
      cases i with
      | zero =>
        have hs := renderHit_starts n hit e h1
        simpa using hs
      | succ j =>
        have hj : j < parts.length := by simpa using hi
        have hs := hp3 j hj
        have harith : n + ((j + 1 : Nat) : Int) = n + 1 + (j : Int) := by push_cast; ring
        rw [List.get_cons_succ, harith]
        exact hs

theorem renderResults_shape (auth : Bool) (term : String) (si : Int) (rj : Json) (b : String)
    (h : renderResults auth term si rj = Except.ok b) :
    ∃ (hits : List Json) (total : Json) (parts : List String),
      b = "# Search results for " ++ term ++ "\n\n"
          ++ (if auth then "" else publicNote)
          ++ ("Showing " ++ toString hits.length ++ " out of " ++ pyStr total ++ " search results")
          ++ (if si > 0 then ", starting at " ++ toString (si + 1) else "")
          ++ "\n\n" ++ sjoin parts
      ∧ parts.length = hits.length
      ∧ (∀ i (hi : i < parts.length),
          pyStartsWith (toString (si + 1 + (i : Int)) ++ ". ") (parts.get ⟨i, hi⟩) = true) := by
  unfold renderResults at h
  cases h1 : pyGet rj "hits" (Json.obj []) with
  | error err => rw [h1, except_bind_error] at h; exact Except.noConfusion h
  | ok hitsOuter =>
  rw [h1, except_bind_ok] at h
  cases h2 : pyGet hitsOuter "hits" (Json.arr []) with
  | error err => rw [h2, except_bind_error] at h; exact Except.noConfusion h
  | ok hitsJ =>
  rw [h2, except_bind_ok, except_bind_ok] at h
  cases h3 : pyGet hitsOuter "total" (Json.num 0) with
  | error err => rw [h3, except_bind_error] at h; exact Except.noConfusion h
  | ok total_hits =>
  rw [h3, except_bind_ok] at h
  cases h4 : pyIterable hitsJ with
  | error err => rw [h4, except_bind_error] at h; exact Except.noConfusion h
  | ok hits =>
  rw [h4, except_bind_ok] at h
  cases h5 : renderHits (si + 1) hits with
  | error err => rw [h5, except_bind_error] at h; exact Except.noConfusion h
  | ok entries =>
  rw [h5, except_bind_ok] at h
  have hb : b = "# Search results for " ++ term ++ "\n\n"
      ++ (if auth then "" else publicNote)
      ++ ("Showing " ++ toString hits.length ++ " out of " ++ pyStr total_hits ++ " search results")
      ++ (if si > 0 then ", starting at " ++ toString (si + 1) else "")
      ++ "\n\n" ++ entries := ((Except.ok.injEq _ _).mp h).symm
  obtain ⟨parts, hp1, hp2, hp3⟩ := renderHits_parts hits (si + 1) entries h5
  exact ⟨hits, total_hits, parts, by rw [hb, hp1], hp2, hp3⟩

/-- Claim C7: a successful search report decomposes as header, note,
count summary, the offset phrase exactly when `start_index > 0`, and one
entry per hit whose numbering starts at `start_index + 1` and increases
by one per entry; with `start_index > 0` the body contains the phrase
", starting at start_index + 1". -/
theorem search_pagination_rendering :
    (∀ (auth : Bool) (term : String) (si : Int) (rj : Json) (b : String),
      renderResults auth term si rj = Except.ok b →
      ∃ (hits : List Json) (total : Json) (parts : List String),
        b = "# Search results for " ++ term ++ "\n\n"
            ++ (if auth then "" else publicNote)
            ++ ("Showing " ++ toString hits.length ++ " out of " ++ pyStr total ++ " search results")
            ++ (if si > 0 then ", starting at " ++ toString (si + 1) else "")
            ++ "\n\n" ++ sjoin parts
        ∧ parts.length = hits.length
        ∧ (∀ i (hi : i < parts.length),
            pyStartsWith (toString (si + 1 + (i : Int)) ++ ". ") (parts.get ⟨i, hi⟩) = true))
    ∧ (∀ (auth : Bool) (term : String) (si : Int) (rj : Json) (b : String),
      0 < si → renderResults auth term si rj = Except.ok b →
      pyContains (", starting at " ++ toString (si + 1)) b = true) := by
  refine ⟨renderResults_shape, ?_⟩
  intro auth term si rj b hsi h
  obtain ⟨hits, total, parts, hb, _, _⟩ := renderResults_shape auth term si rj b h
  rw [hb, if_pos hsi]
  rw [String.append_assoc _ "\n\n" (sjoin parts)]
  exact pyContains_of_middle _ _ _

set_option maxRecDepth 4000 in
/-- Witness for C7 at a concrete one-hit response with start index 30. -/
theorem search_pagination_rendering_witness :
    pyContains ", starting at 31"
      ("# Search results for A\n\n" ++ publicNote
        ++ "Showing 1 out of 1 search results, starting at 31\n\n31. **[A](u)**\n   **Type:** Docs\n   **Breadcrumb:** x / y\n\n") = true := by
  have h := search_pagination_rendering
  exact h.2 false "A" 30
    (Json.obj [("hits", Json.obj [
      ("hits", Json.arr [Json.obj [("_source", Json.obj [
        ("title", Json.str "A"), ("url", Json.str "u"), ("type", Json.str "Docs"),
        ("breadcrumb", Json.arr [Json.str "x", Json.str "y"])])]]),
      ("total", Json.num 1)])])
    _ (by decide) rfl

theorem infix_of_pre {α : Type} {l1 l2 : List α} (h : l1 <+: l2) : l1 <:+: l2 := by
  obtain ⟨t, ht⟩ := h
  exact ⟨[], t, by simpa using ht⟩

theorem infix_of_suf {α : Type} {l1 l2 : List α} (h : l1 <:+ l2) : l1 <:+: l2 := by
  obtain ⟨s, hs⟩ := h
  exact ⟨s, [], by simpa using hs⟩

theorem infix_trans {α : Type} {l1 l2 l3 : List α} (h1 : l1 <:+: l2) (h2 : l2 <:+: l3) : l1 <:+: l3 := by
  obtain ⟨s, t, hst⟩ := h1
  obtain ⟨u, v, huv⟩ := h2
  exact ⟨u ++ s, t ++ v, by rw [← huv, ← hst]; simp [List.append_assoc]⟩

theorem infix_mem {α : Type} {l1 l2 : List α} (h : l1 <:+: l2) {c : α} (hc : c ∈ l1) : c ∈ l2 := by
  obtain ⟨s, t, hst⟩ := h
  rw [← hst]
  simp [hc]

theorem dropWhile_suffix_decomp {α : Type} (p : α → Bool) (l : List α) :
    ∃ t, l = t ++ List.dropWhile p l := by
  induction l with
  | nil => exact ⟨[], rfl⟩
  | cons a rest ih =>
    by_cases h : p a
    · obtain ⟨t, ht⟩ := ih
      refine ⟨a :: t, ?_⟩
      rw [List.dropWhile_cons_of_pos h]
      simpa using ht
    · exact ⟨[], by rw [List.dropWhile_cons_of_neg h]; simp⟩

theorem head_dropWhile_neg {α : Type} (p : α → Bool) (l : List α) (c : α)
    (h : (List.dropWhile p l).head? = some c) : p c = false := by
  induction l with
  | nil => simp at h
  | cons a rest ih =>
    by_cases hp : p a
    · rw [List.dropWhile_cons_of_pos hp] at h
      exact ih h
    · rw [List.dropWhile_cons_of_neg hp] at h
      simp at h
      rw [← h]
      exact Bool.eq_false_iff.mpr hp

theorem startsWithL_iff_pre (n : List Char) : ∀ h : List Char, startsWithL n h = true ↔ n <+: h := by
  induction n with
  | nil => intro h; simp [startsWithL]
  | cons a as ih =>
    intro h
    cases h with
    | nil => simp [startsWithL]
    | cons b bs =>
      rw [startsWithL]
      simp only [Bool.and_eq_true, beq_iff_eq]
      rw [ih bs]
      exact (List.cons_prefix_cons).symm

theorem infix_cons_split (n : List Char) (c : Char) (t : List Char) :
    n <:+: (c :: t) ↔ n <+: (c :: t) ∨ n <:+: t := by
  constructor
  · intro h
    obtain ⟨u, v, huv⟩ := h
    cases u with
    | nil => exact Or.inl ⟨v, by simpa using huv⟩
    | cons d u' =>
      right
      simp only [List.cons_append] at huv
      exact ⟨u', v, (List.cons.inj huv).2⟩
  · intro h
    rcases h with h | h
    · exact infix_of_pre h
    · obtain ⟨u, v, huv⟩ := h
      exact ⟨c :: u, v, by simp [← huv]⟩

theorem containsL_iff_found (n : List Char) : ∀ h : List Char, containsL n h = true ↔ n <:+: h := by
  intro h
  induction h with
  | nil =>
    rw [containsL.eq_def]
    cases n with
    | nil => simp [startsWithL]
    | cons a as => simp [startsWithL]
  | cons c t ih =>
    rw [containsL.eq_def]
    simp only [Bool.or_eq_true]
    rw [startsWithL_iff_pre, ih, infix_cons_split]

theorem pySplitNL_no_nl : ∀ (l : List Char) (p : List Char), p ∈ pySplitNL l → '\n' ∉ p := by
  intro l
  induction l with
  | nil =>
    intro p hp
    simp [pySplitNL] at hp
    simp [hp]
  | cons c rest ih =>
    intro p hp
    rw [pySplitNL] at hp
    by_cases hc : c = '\n'
    · rw [if_pos hc] at hp
      rcases List.mem_cons.mp hp with h | h
      · simp [h]
      · exact ih p h
    · rw [if_neg hc] at hp
      cases hrec : pySplitNL rest with
      | nil =>
        rw [hrec] at hp
        simp at hp
        subst hp
        simp only [List.mem_singleton]
        exact fun h => hc h.symm
      | cons q qs =>
        rw [hrec] at hp
        rcases List.mem_cons.mp hp with h | h
        · subst h
          intro hmem
          rcases List.mem_cons.mp hmem with h' | h'
          · exact hc h'.symm
          · exact ih q (by rw [hrec]; exact List.mem_cons_self q qs) h'
        · exact ih p (by rw [hrec]; exact List.mem_cons_of_mem q h)

theorem mem_dropWhile_mem {α : Type} (p : α → Bool) : ∀ (l : List α) (x : α), x ∈ List.dropWhile p l → x ∈ l := by
  intro l
  induction l with
  | nil => intro x hx; simp at hx
  | cons a rest ih =>
    intro x hx
    by_cases hp : p a
    · rw [List.dropWhile_cons_of_pos hp] at hx
      exact List.mem_cons_of_mem a (ih x hx)
    · rw [List.dropWhile_cons_of_neg hp] at hx
      exact hx

theorem pyRstripL_no_nl (l : List Char) (h : '\n' ∉ l) : '\n' ∉ pyRstripL l := by
  intro hmem
  unfold pyRstripL at hmem
  rw [List.mem_reverse] at hmem
  have := mem_dropWhile_mem pyIsSpace l.reverse '\n' hmem
  rw [List.mem_reverse] at this
  exact h this

theorem cleanLines_no_nl : ∀ (ls : List (List Char)) (prev : Bool),
    (∀ p ∈ ls, '\n' ∉ p) → ∀ p ∈ cleanLines prev ls, '\n' ∉ p := by
  intro ls
  induction ls with
  | nil => intro prev _ p hp; simp [cleanLines] at hp
  | cons line rest ih =>
    intro prev hall p hp
    rw [cleanLines] at hp
    by_cases hcase : (pyRstripL line).isEmpty && prev
    · rw [if_pos hcase] at hp
      exact ih prev (fun q hq => hall q (List.mem_cons_of_mem line hq)) p hp
    · rw [if_neg hcase] at hp
      rcases List.mem_cons.mp hp with h | h
      · subst h
        exact pyRstripL_no_nl line (hall line (List.mem_cons_self line rest))
      · exact ih (pyRstripL line).isEmpty (fun q hq => hall q (List.mem_cons_of_mem line hq)) p h

theorem noTwoBlank_cons (a : List Char) (l : List (List Char)) :
    noTwoBlank (a :: l) ↔ (∀ b, l.head? = some b → (a ≠ [] ∨ b ≠ [])) ∧ noTwoBlank l := by
  cases l with
  | nil => simp [noTwoBlank]
  | cons b rest =>
    rw [noTwoBlank]
    constructor
    · rintro ⟨h1, h2⟩
      exact ⟨fun b' hb' => by simp at hb'; rw [← hb']; exact h1, h2⟩
    · rintro ⟨h1, h2⟩
      exact ⟨h1 b rfl, h2⟩

theorem cleanLines_ok : ∀ (ls : List (List Char)) (prev : Bool),
    noTwoBlank (cleanLines prev ls)
    ∧ (prev = true → ∀ p, (cleanLines prev ls).head? = some p → p ≠ []) := by
  intro ls
  induction ls with
  | nil => intro prev; exact ⟨trivial, fun _ p hp => by simp [cleanLines] at hp⟩
  | cons line rest ih =>
    intro prev
    constructor
    · rw [cleanLines]
      by_cases hcase : (pyRstripL line).isEmpty && prev
      · rw [if_pos hcase]
        exact (ih prev).1
      · rw [if_neg hcase]
        rw [noTwoBlank_cons]
        refine ⟨?_, (ih (pyRstripL line).isEmpty).1⟩
        intro b hb
        by_cases hline : pyRstripL line = []
        · right
          have hie : (pyRstripL line).isEmpty = true := by simp [hline]
          exact (ih (pyRstripL line).isEmpty).2 (by rw [hie]) b hb
        · exact Or.inl hline
    · intro hprev p hp
      rw [cleanLines] at hp
      by_cases hcase : (pyRstripL line).isEmpty && prev
      · rw [if_pos hcase] at hp
        exact (ih prev).2 hprev p hp
      · rw [if_neg hcase] at hp
        simp at hp
        rw [← hp]
        intro hcontra
        apply hcase
        rw [hprev, hcontra]
        simp

theorem noStraddle (n : List Char) : ∀ (x y : List Char), (∀ c ∈ n, c ∉ x) → n ≠ [] →
    n <:+: (x ++ y) → n <:+: y := by
  intro x
  induction x with
  | nil => intro y _ _ h; simpa using h
  | cons c x' ih =>
    intro y hdisj hne h
    obtain ⟨u, v, huv⟩ := h
    cases u with
    | nil =>
      exfalso
      cases n with
      | nil => exact hne rfl
      | cons a n' =>
        simp only [List.nil_append, List.cons_append] at huv
        have ha : a = c := (List.cons.inj huv).1
        exact hdisj a (List.mem_cons_self a n') (by rw [ha]; exact List.mem_cons_self c x')
    | cons d u' =>
      simp only [List.cons_append] at huv
      have h2 : u' ++ n ++ v = x' ++ y := (List.cons.inj huv).2
      exact ih y (fun e he => fun hex => hdisj e he (List.mem_cons_of_mem c hex)) hne ⟨u', v, h2⟩

theorem join_head_of_cons (a : Char) (r' : List Char) (rest : List (List Char)) :
    (pyIntercalateNL ((a :: r') :: rest)).head? = some a := by
  cases rest <;> rfl

theorem join_no_triple : ∀ (ls : List (List Char)), (∀ p ∈ ls, '\n' ∉ p) → noTwoBlank ls →
    ¬ (['\n', '\n', '\n'] <:+: pyIntercalateNL ls) := by
  intro ls
  induction ls with
  | nil =>
    intro _ _ h
    obtain ⟨u, v, huv⟩ := h
    simp [pyIntercalateNL] at huv
  | cons p tail ih =>
    intro hnl hnb h
    cases tail with
    | nil =>
      have hmem : '\n' ∈ p := infix_mem h (by simp)
      exact hnl p (by simp) hmem
    | cons q rest =>
      rw [show pyIntercalateNL (p :: q :: rest) = p ++ '\n' :: pyIntercalateNL (q :: rest) from rfl] at h
      have h2 : ['\n', '\n', '\n'] <:+: ('\n' :: pyIntercalateNL (q :: rest)) := by
        refine noStraddle _ p _ ?_ (by simp) h
        intro c hc
        have hc' : c = '\n' := by simpa using hc
        rw [hc']
        exact hnl p (by simp)
      obtain ⟨u, v, huv⟩ := h2
      cases u with
      | nil =>
        simp only [List.nil_append, List.cons_append] at huv
        have hj : pyIntercalateNL (q :: rest) = '\n' :: '\n' :: v := ((List.cons.inj huv).2).symm
        cases rest with
        | nil =>
          apply hnl q (by simp)
          rw [show pyIntercalateNL [q] = q from rfl] at hj
          rw [hj]
          simp
        | cons r rest' =>
          rw [show pyIntercalateNL (q :: r :: rest') = q ++ '\n' :: pyIntercalateNL (r :: rest') from rfl] at hj
          cases q with
          | cons b q' =>
            apply hnl (b :: q') (by simp)
            simp only [List.cons_append] at hj
            have hb : b = '\n' := (List.cons.inj hj).1
            rw [hb]
            simp
          | nil =>
            simp only [List.nil_append] at hj
            have hj2 : pyIntercalateNL (r :: rest') = '\n' :: v := (List.cons.inj hj).2
            have hr : r ≠ [] := by
              rcases hnb with ⟨-, hpair, -⟩
              rcases hpair with h1 | h1
              · exact absurd rfl h1
              · exact h1
            cases r with
            | nil => exact hr rfl
            | cons a r' =>
              have hhead := join_head_of_cons a r' rest'
              rw [hj2] at hhead
              simp at hhead
              apply hnl (a :: r') (by simp)
              rw [← hhead]
              simp
      | cons d u' =>
        simp only [List.cons_append] at huv
        have h3 : u' ++ ['\n', '\n', '\n'] ++ v = pyIntercalateNL (q :: rest) := (List.cons.inj huv).2
        exact ih (fun p' hp' => hnl p' (List.mem_cons_of_mem p hp')) hnb.2 ⟨u', v, h3⟩

theorem head?_append_left {α : Type} (a b : List α) (ha : a ≠ []) : (a ++ b).head? = a.head? := by
  cases a with
  | nil => exact absurd rfl ha
  | cons x xs => rfl

theorem getLast?_append_right {α : Type} (t z : List α) (hz : z ≠ []) :
    (t ++ z).getLast? = z.getLast? := by
  have h1 : (t ++ z).getLast? = ((t ++ z).reverse).head? := (List.head?_reverse _).symm
  rw [h1, List.reverse_append, head?_append_left _ _ (by simpa using hz), List.head?_reverse]

theorem pyStripL_sublist_of (xs : List Char) : pyStripL xs <:+: xs := by
  unfold pyStripL
  obtain ⟨t0, ht0⟩ := dropWhile_suffix_decomp pyIsSpace xs
  obtain ⟨t1, ht1⟩ := dropWhile_suffix_decomp pyIsSpace (List.dropWhile pyIsSpace xs).reverse
  have hpre : (List.dropWhile pyIsSpace (List.dropWhile pyIsSpace xs).reverse).reverse
      <+: List.dropWhile pyIsSpace xs := by
    refine ⟨t1.reverse, ?_⟩
    have h2 := congrArg List.reverse ht1
    simp only [List.reverse_reverse, List.reverse_append] at h2
    exact h2.symm
  have hsuf : List.dropWhile pyIsSpace xs <:+ xs := ⟨t0, ht0.symm⟩
  exact infix_trans (infix_of_pre hpre) (infix_of_suf hsuf)

/-- Claim C9: the whitespace cleanup of `_read_url_content` leaves no
two consecutive blank lines (no "\n\n\n" substring remains), strips
leading and trailing whitespace (so no leading/trailing blank line
survives), a run of blank lines collapses to a single blank line rather
than disappearing, and a successful HTML conversion renders the cleaned
text under the standard header. -/
theorem content_blank_line_normalization :
    (∀ markdown_content : String,
      containsL ['\n', '\n', '\n'] (cleanupLines markdown_content).toList = false
      ∧ (∀ c, (cleanupLines markdown_content).toList.head? = some c → pyIsSpace c = false)
      ∧ (∀ c, (cleanupLines markdown_content).toList.getLast? = some c → pyIsSpace c = false))
    ∧ cleanupLines "a\n\n\n\nb" = "a\n\nb"
    ∧ (∀ (reason content_type body url md : String) (convert : String → Except String String),
        pyContains "Sign in to GitHub" body = false →
        pyContains "html" (pyLower content_type) = true →
        convert body = Except.ok md →
        read_url_content (FetchResult.resp 200 reason content_type body) convert url =
          envelope ("# Content from " ++ url ++ "\n\n" ++ cleanupLines md)) := by
  refine ⟨?_, rfl, ?_⟩
  · intro s
    have hnl_clean : ∀ p ∈ cleanLines false (pySplitNL s.toList), '\n' ∉ p :=
      cleanLines_no_nl (pySplitNL s.toList) false (pySplitNL_no_nl s.toList)
    have hnb : noTwoBlank (cleanLines false (pySplitNL s.toList)) :=
      (cleanLines_ok (pySplitNL s.toList) false).1
    have hJ := join_no_triple (cleanLines false (pySplitNL s.toList)) hnl_clean hnb
    have hout : (cleanupLines s).toList
        = pyStripL (pyIntercalateNL (cleanLines false (pySplitNL s.toList))) := rfl
    refine ⟨?_, ?_, ?_⟩
    · rw [hout]
      refine Bool.eq_false_iff.mpr ?_
      intro htrue
      exact hJ (infix_trans ((containsL_iff_found _ _).mp htrue)
        (pyStripL_sublist_of (pyIntercalateNL (cleanLines false (pySplitNL s.toList)))))
    · intro c hc
      rw [hout] at hc
      unfold pyStripL at hc
      rw [List.head?_reverse] at hc
      obtain ⟨t1, ht1⟩ := dropWhile_suffix_decomp pyIsSpace
        (List.dropWhile pyIsSpace (pyIntercalateNL (cleanLines false (pySplitNL s.toList)))).reverse
      by_cases hz : List.dropWhile pyIsSpace
          (List.dropWhile pyIsSpace (pyIntercalateNL (cleanLines false (pySplitNL s.toList)))).reverse = []
      · rw [hz] at hc
        simp at hc
      · have h4 : (List.dropWhile pyIsSpace
            (List.dropWhile pyIsSpace (pyIntercalateNL (cleanLines false (pySplitNL s.toList)))).reverse).getLast?
            = (List.dropWhile pyIsSpace (pyIntercalateNL (cleanLines false (pySplitNL s.toList)))).head? := by
          rw [← getLast?_append_right t1 _ hz, ← ht1, List.getLast?_reverse]
        rw [h4] at hc
        exact head_dropWhile_neg pyIsSpace _ c hc
    · intro c hc
      rw [hout] at hc
      unfold pyStripL at hc
      rw [List.getLast?_reverse] at hc
      exact head_dropWhile_neg pyIsSpace _ c hc
  · intro reason content_type body url md convert h1 h2 h3
    simp only [read_url_content, h1, h2, h3, Bool.false_or]
    norm_num

/-- Witness for C9 at concrete inputs: a cleanup whose output head is a
non-space character, and a successful conversion whose blank-line run
collapses in the final envelope. -/
theorem content_blank_line_normalization_witness :
    pyIsSpace 'a' = false
    ∧ read_url_content (FetchResult.resp 200 "OK" "text/html" "<p>a</p>")
        (fun _ => Except.ok "a\n\n\n\nb") "u" = envelope "# Content from u\n\na\n\nb" := by
  have h := content_blank_line_normalization
  refine ⟨(h.1 "  \n\na").2.1 'a' rfl, ?_⟩
  exact h.2.2 "OK" "text/html" "<p>a</p>" "u" "a\n\n\n\nb" (fun _ => Except.ok "a\n\n\n\nb")
    (by decide) (by decide) rfl
